import Mathlib

/-!
Verification of `src/common/schedulers/slurm_commands.py` (aws-parallelcluster-node).

This file shallowly embeds the node/partition update and parsing layer of the
scheduler command module and proves properties of the embedding.

Modelling conventions:
* Python values that may be a string or another iterable of strings are
  embedded as `StrOrList`.
* Python exceptions are embedded as `Except Unit` results (the error payloads
  are irrelevant to the verified properties).
* The external command executor (`common.utils.run_command`, not under `src/`)
  is injected as a success oracle `runOk : String → Bool`; per the spec it runs
  the command and raises on non-zero exit when `raise_on_error` is set.
* Functions from this repository that are not under `src/`
  (`common.utils.grouper`, `common.utils.validate_subprocess_argument`,
  `slurm_plugin.slurm_resources.parse_nodename`, node/partition entity
  classes) are modelled from the spec; their doc comments say so.
-/

namespace Slurm

/-- A Python argument that is either a `str` or a list of strings
(`update_nodes` docstring: "Inputs can be string or other iterables"). -/
inductive StrOrList where
  | str (s : String)
  | list (l : List String)
deriving DecidableEq

/-- Character-level worker for `re.split("(?<=]),", s)` (slurm_commands.py
lines 218 and 230): split at each comma whose preceding character in the
original string is a closing bracket.  `prev` is the previously scanned
character of the original string, `acc` the characters of the current token. -/
def splitGo : List Char → Option Char → List Char → List (List Char)
  | [], _, acc => [acc]
  | c :: rest, prev, acc =>
    if c = ',' ∧ prev = some ']' then acc :: splitGo rest (some c) []
    else splitGo rest (some c) (acc ++ [c])

/-- `re.split("(?<=]),", s)`: split only on commas directly preceded by a
closing bracket (slurm_commands.py lines 218 and 230). -/
def splitAfterBracket (s : String) : List String :=
  (splitGo s.data none []).map (fun l => String.mk l)

/-- Join character-level tokens back with commas (used to state the
reconstruction property of the tokenizer). -/
def joinComma : List (List Char) → List Char
  | [] => []
  | [t] => t
  | t :: ts => t ++ ',' :: joinComma ts

/-- `hasBC cs = true` iff `cs` contains a closing bracket immediately followed
by a comma, i.e. a position at which the tokenizer would split. -/
def hasBC : List Char → Bool
  | a :: b :: rest => (decide (a = ']') && decide (b = ',')) || hasBC (b :: rest)
  | _ => false

/-- Modelled from the spec: the spec's description of the tokenizer, "split
into tokens on commas that are *not* inside a bracketed range".  This is the
spec's wording made precise (split on commas at bracket depth zero); it exists
only to be compared with `splitAfterBracket`, which is the code's tokenizer. -/
def splitOutsideGo : List Char → Nat → List Char → List (List Char)
  | [], _, acc => [acc]
  | c :: rest, depth, acc =>
    if c = ',' ∧ depth = 0 then acc :: splitOutsideGo rest depth []
    else
      splitOutsideGo rest
        (if c = '[' then depth + 1 else if c = ']' then depth - 1 else depth)
        (acc ++ [c])

/-- Modelled from the spec: split on exactly the commas outside any bracketed
range (companion definition to `splitOutsideGo`). -/
def splitOutsideBrackets (s : String) : List String :=
  (splitOutsideGo s.data 0 []).map (fun l => String.mk l)

/-- Tokenisation applied by `_batch_attribute` / `_batch_node_info` to a
string input; list inputs are used as-is (`type(attribute) is str` check). -/
def tokensOf : StrOrList → List String
  | .str s => splitAfterBracket s
  | .list l => l

/-- Modelled from the spec: `common.utils.validate_subprocess_argument` (not
under `src/`): the "Argument Validator ... rejects any string destined for
shell interpolation that contains characters enabling injection".  `validArg`
accepts a string iff it has no shell-injection character (the backtick is
written `Char.ofNat 96`). -/
def validArg (s : String) : Bool :=
  !(s.data.any fun c =>
    c = ';' || c = '&' || c = '|' || c = '<' || c = '>' ||
    c = Char.ofNat 96 || c = '$' || c = '\n')

/-- `SCONTROL` command prefix (slurm_commands.py line 60, with the default
`SLURM_BINARIES_DIR`). -/
def SCONTROL : String := "sudo /opt/slurm/bin/scontrol"

/-- Fuel-driven worker for `grouper` (fuel bounds the number of chunks so the
recursion is structural; `fuel ≥ l.length` never exhausts it for `n ≥ 1`). -/
def grouperGo (n : Nat) : Nat → List α → List (List α)
  | 0, _ => []
  | _, [] => []
  | fuel + 1, a :: l => ((a :: l).take n) :: grouperGo n fuel ((a :: l).drop n)

/-- Modelled from the spec: `common.utils.grouper` (not under `src/`):
"Partition the ... token list into fixed-size groups" (§4.2); successive
chunks of size `n`, the last chunk possibly shorter.  `grouper l 0 = []`
(an empty slice ends the Python generator at once). -/
def grouper (l : List α) (n : Nat) : List (List α) :=
  if n = 0 then [] else grouperGo n l.length l

/-- Python truthiness of the optional attribute arguments (`if nodeaddrs:`):
`None`, `""` and `[]` are falsy. -/
def truthyS : StrOrList → Bool
  | .str s => !s.isEmpty
  | .list l => !l.isEmpty

/-- `_batch_attribute(attribute, batch_size, expected_length)`
(slurm_commands.py lines 215-222): tokenize a string input, optionally check
the token count against `expected_length` (skipped when `expected_length` is
falsy, i.e. `None` or `0`), raise `ValueError` on mismatch, and return the
comma-joined batches. -/
def batch_attribute (attrib : StrOrList) (batch_size : Nat)
    (expected_length : Option Nat) : Except Unit (List String) :=
  let attr := tokensOf attrib
  match expected_length with
  | some n =>
    if n ≠ 0 ∧ attr.length ≠ n then .error ()
    else .ok ((grouper attr batch_size).map (String.intercalate ","))
  | none => .ok ((grouper attr batch_size).map (String.intercalate ","))

/-- Python `zip` over three lists (truncating to the shortest). -/
def zip3 : List α → List β → List γ → List (α × β × γ)
  | a :: as, b :: bs, c :: cs => (a, b, c) :: zip3 as bs cs
  | _, _, _ => []

/-- `_batch_node_info(nodenames, nodeaddrs, nodehostnames, batch_size)`
(slurm_commands.py lines 225-247): split the node expression, batch it, batch
the truthy auxiliary attributes with an expected length equal to the node
token count (`ValueError` logged and re-raised on mismatch), pad absent
attributes with `None`, and zip the three batch lists. -/
def batch_node_info (nodenames : StrOrList) (nodeaddrs nodehostnames : Option StrOrList)
    (batch_size : Nat) : Except Unit (List (String × Option String × Option String)) :=
  let nodenameList := tokensOf nodenames
  match batch_attribute (.list nodenameList) batch_size none with
  | .error e => .error e
  | .ok nodename_batch =>
    let addrsRes : Except Unit (List (Option String)) :=
      match nodeaddrs with
      | some a =>
        if truthyS a then
          match batch_attribute a batch_size (some nodenameList.length) with
          | .error e => .error e
          | .ok l => .ok (l.map some)
        else .ok (List.replicate nodename_batch.length none)
      | none => .ok (List.replicate nodename_batch.length none)
    match addrsRes with
    | .error e => .error e
    | .ok nodeaddrs_batch =>
      let hostsRes : Except Unit (List (Option String)) :=
        match nodehostnames with
        | some h =>
          if truthyS h then
            match batch_attribute h batch_size (some nodenameList.length) with
            | .error e => .error e
            | .ok l => .ok (l.map some)
          else .ok (List.replicate nodename_batch.length none)
        | none => .ok (List.replicate nodename_batch.length none)
      match hostsRes with
      | .error e => .error e
      | .ok nodehostnames_batch =>
        .ok (zip3 nodename_batch nodeaddrs_batch nodehostnames_batch)

/-- Construction of the `scontrol update` prefix (slurm_commands.py lines
155-161): append ` state=...` and ` reason="..."` for the truthy optional
arguments, validating each fragment first (a rejected fragment raises before
any command runs). -/
def buildUpdateCmd (state reason : Option String) : Except Unit String :=
  let cmd := SCONTROL ++ " update"
  match state with
  | some st =>
    if st = "" then
      match reason with
      | some r =>
        if r = "" then .ok cmd
        else if validArg r then .ok (cmd ++ " reason=\"" ++ r ++ "\"") else .error ()
      | none => .ok cmd
    else if validArg st then
      let cmd := cmd ++ " state=" ++ st
      match reason with
      | some r =>
        if r = "" then .ok cmd
        else if validArg r then .ok (cmd ++ " reason=\"" ++ r ++ "\"") else .error ()
      | none => .ok cmd
    else .error ()
  | none =>
    match reason with
    | some r =>
      if r = "" then .ok cmd
      else if validArg r then .ok (cmd ++ " reason=\"" ++ r ++ "\"") else .error ()
    | none => .ok cmd

/-- Construction of the per-batch `nodename=... [nodeaddr=...]
[nodehostname=...]` fragment (slurm_commands.py lines 163-170), validating
each truthy piece. -/
def buildNodeInfo : String × Option String × Option String → Except Unit String
  | (nodenames, addrs, hostnames) =>
    if validArg nodenames then
      let s := "nodename=" ++ nodenames
      let addrRes : Except Unit String :=
        match addrs with
        | some a =>
          if a = "" then .ok s
          else if validArg a then .ok (s ++ " nodeaddr=" ++ a) else .error ()
        | none => .ok s
      match addrRes with
      | .error e => .error e
      | .ok s =>
        match hostnames with
        | some h =>
          if h = "" then .ok s
          else if validArg h then .ok (s ++ " nodehostname=" ++ h) else .error ()
        | none => .ok s
    else .error ()

/-- The per-batch loop of `update_nodes` (slurm_commands.py lines 162-174).
Returns the commands handed to `run_command` in order, together with the
outcome: a validation failure or, with `raise_on_error` set, a failed command
raises and ends the loop (per the spec, `run_command` raises on non-zero exit
when `raise_on_error` is true); with `raise_on_error` unset failures are
swallowed and the loop continues. -/
def runBatches (runOk : String → Bool) (raise_on_error : Bool) (update_cmd : String) :
    List (String × Option String × Option String) → List String × Except Unit Unit
  | [] => ([], .ok ())
  | b :: rest =>
    match buildNodeInfo b with
    | .error _ => ([], .error ())
    | .ok info =>
      let cmd := update_cmd ++ " " ++ info
      if runOk cmd then
        let r := runBatches runOk raise_on_error update_cmd rest
        (cmd :: r.1, r.2)
      else if raise_on_error then ([cmd], .error ())
      else
        let r := runBatches runOk raise_on_error update_cmd rest
        (cmd :: r.1, r.2)

/-- The full command of each batch, for stating which commands the loop runs. -/
def cmdsOf (update_cmd : String) (batches : List (String × Option String × Option String)) :
    List String :=
  batches.map (fun b => update_cmd ++ " " ++ ((buildNodeInfo b).toOption.getD ""))

/-- `update_nodes(nodes, nodeaddrs, nodehostnames, state, reason,
raise_on_error)` (slurm_commands.py lines 127-174): batch the node info
(batch size 100), build the update command, then run one command per batch.
Returns the executed commands and the outcome. -/
def update_nodes (runOk : String → Bool) (nodes : StrOrList)
    (nodeaddrs nodehostnames : Option StrOrList) (state reason : Option String)
    (raise_on_error : Bool) : List String × Except Unit Unit :=
  match batch_node_info nodes nodeaddrs nodehostnames 100 with
  | .error _ => ([], .error ())
  | .ok batched =>
    match buildUpdateCmd state reason with
    | .error _ => ([], .error ())
    | .ok update_cmd => runBatches runOk raise_on_error update_cmd batched

/-- `update_partitions(partitions, state)` (slurm_commands.py lines 177-192):
validate `state` (before the loop — a rejected state raises out of the
function), then per partition validate and run the update inside a
`try/except` that logs and continues, collecting the partitions whose update
succeeded.  `partOk p` tells whether the update command for partition `p`
exits zero. -/
def update_partitions (partOk : String → Bool) (partitions : List String)
    (state : String) : Except Unit (List String) :=
  if validArg state then
    .ok (partitions.foldl (fun acc p => if validArg p && partOk p then acc ++ [p] else acc) [])
  else .error ()

/-- Modelled retry loop of the `retrying` library as configured at
slurm_commands.py line 260 (`stop_max_attempt_number`, `wait_fixed`): attempt
`f` up to the given total number of attempts, waiting `waitMs` between
consecutive attempts, re-raising the last error when attempts are exhausted.
Returns (outcome, attempts made, waits performed).  `left` counts the retries
still allowed after the current attempt. -/
def retryGo (f : Nat → Except ε α) (waitMs : Nat) : Nat → Nat → Except ε α × Nat × List Nat
  | attempt, 0 => (f attempt, 1, [])
  | attempt, left + 1 =>
    match f attempt with
    | .ok a => (.ok a, 1, [])
    | .error _ =>
      let r := retryGo f waitMs (attempt + 1) left
      (r.1, r.2.1 + 1, waitMs :: r.2.2)

/-- `@retry(stop_max_attempt_number=maxAttempts, wait_fixed=waitMs)` applied
to `f` (see `retryGo`). -/
def retryFixed (maxAttempts waitMs : Nat) (f : Nat → Except ε α) :
    Except ε α × Nat × List Nat :=
  retryGo f waitMs 1 (maxAttempts - 1)

/-- `reset_nodes(nodes, state, reason, raise_on_error)` (slurm_commands.py
lines 266-270): update with `nodeaddrs` and `nodehostnames` both set to the
node names themselves. -/
def reset_nodes (runOk : String → Bool) (nodes : StrOrList) (state reason : Option String)
    (raise_on_error : Bool) : List String × Except Unit Unit :=
  update_nodes runOk nodes (some nodes) (some nodes) state reason raise_on_error

/-- `set_nodes_power_down(nodes, reason)` (slurm_commands.py lines 260-263):
`reset_nodes` with `state="power_down_force"` and `raise_on_error=True`,
wrapped in `@retry(stop_max_attempt_number=3, wait_fixed=1500)` (1500 ms =
1.5 s).  `runOk attempt cmd` is the executor oracle for each attempt. -/
def set_nodes_power_down (runOk : Nat → String → Bool) (nodes : StrOrList)
    (reason : Option String) : Except Unit Unit × Nat × List Nat :=
  retryFixed 3 1500 (fun attempt =>
    (reset_nodes (runOk attempt) nodes (some "power_down_force") reason true).2)

/-- Characters allowed in the queue-name and instance-type segments of a node
name (`[a-z0-9\-]`). -/
def isNameChar (c : Char) : Bool :=
  (decide ('a' ≤ c) && decide (c ≤ 'z')) || c.isDigit || decide (c = '-')

/-- Backtracking helper for the instance-type segment: try segment lengths
`j, j-1, ..., 1` so that the remainder is `-` followed by one or more
digits (the trailing index of the node name). -/
def matchItypeNum : Nat → List Char → Option String
  | 0, _ => none
  | j + 1, r =>
    let seg := r.take (j + 1)
    let rest := r.drop (j + 1)
    if seg.all isNameChar &&
        (match rest with
         | '-' :: ds => !ds.isEmpty && ds.all Char.isDigit
         | _ => false) then
      some (String.mk seg)
    else matchItypeNum j r

/-- Backtracking helper for the queue-name segment: try queue lengths
`k, k-1, ..., 1` (longest first, as the greedy regex does), expecting
`-st-` or `-dy-` and then an instance type and index. -/
def tryQueue : Nat → List Char → Option (String × String × String)
  | 0, _ => none
  | k + 1, cs =>
    let q := cs.take (k + 1)
    let rest := cs.drop (k + 1)
    (if q.all isNameChar then
      match rest with
      | '-' :: a :: b :: '-' :: r =>
        if (a = 's' ∧ b = 't') ∨ (a = 'd' ∧ b = 'y') then
          match matchItypeNum r.length r with
          | some it => some (String.mk q, String.mk [a, b], it)
          | none => tryQueue k cs
        else tryQueue k cs
      | _ => tryQueue k cs
    else tryQueue k cs)

/-- Modelled from the spec: `slurm_plugin.slurm_resources.parse_nodename`
(not under `src/`): a node name "must parse into exactly
(queue, provisioning-mode ∈ st/dy, instance-type, index)" with the
grammar `queue-st|dy-instancetype-number` (slurm_commands.py line 121),
queue and instance type over `[a-z0-9-]`, matched greedily as Python's
`re.match` does; `none` models the raised `InvalidNodenameError`. -/
def parse_nodename (s : String) : Option (String × String × String) :=
  tryQueue s.length s.data

/-- `is_static_node(nodename)` (slurm_commands.py lines 117-124): parse the
name (propagating `InvalidNodenameError`) and compare the provisioning mode
with "st". -/
def is_static_node (nodename : String) : Except Unit Bool :=
  match parse_nodename nodename with
  | none => .error ()
  | some (_, node_type, _) => .ok (decide ("st" = node_type))

/-- Fuel-driven worker for Python `str.split(sep)` with a non-empty separator
(`acc` is the current piece; each step consumes at least one character, so
`fuel = length` suffices). -/
def splitSepGo (sep : List Char) : Nat → List Char → List Char → List (List Char)
  | 0, acc, rest => [acc ++ rest]
  | _ + 1, acc, [] => [acc]
  | fuel + 1, acc, c :: cs =>
    if sep.isPrefixOf (c :: cs) then
      acc :: splitSepGo sep fuel [] ((c :: cs).drop sep.length)
    else splitSepGo sep fuel (acc ++ [c]) cs

/-- Python `s.split(sep)` for a non-empty separator (used for the `######\n`
record separator, the lines and the `Key=Value` pairs). -/
def pySplitOn (s sep : String) : List String :=
  (splitSepGo sep.data s.data.length [] s.data).map (fun l => String.mk l)

/-- Python `str.splitlines()` on `\n`-separated text: like splitting on
`\n` but without a final empty piece from a trailing newline. -/
def pySplitlines (s : String) : List String :=
  let parts := pySplitOn s "\n"
  match parts.getLast? with
  | some "" => parts.dropLast
  | _ => parts

/-- A naive (timezone-less) timestamp as produced by
`datetime.strptime(value, "%Y-%m-%dT%H:%M:%S")`. -/
structure NaiveDT where
  year : Nat
  month : Nat
  day : Nat
  hour : Nat
  minute : Nat
  second : Nat
deriving DecidableEq

/-- Gregorian leap year. -/
def isLeap (y : Nat) : Bool := (y % 4 = 0 && y % 100 ≠ 0) || y % 400 = 0

/-- Days in a month of the proleptic Gregorian calendar. -/
def daysInMonth (y m : Nat) : Nat :=
  if m = 2 then (if isLeap y then 29 else 28)
  else if m = 4 ∨ m = 6 ∨ m = 9 ∨ m = 11 then 30
  else 31

/-- Days in the months of year `y` strictly before month `m`. -/
def daysBeforeMonth (y : Nat) : Nat → Nat
  | 0 => 0
  | 1 => 0
  | m + 2 => daysBeforeMonth y (m + 1) + daysInMonth y (m + 1)

/-- Days strictly before January 1 of year `y`, counted from year 1
(as `datetime.toordinal`, shifted to start at 0). -/
def daysBeforeYear (y : Nat) : Nat :=
  (y - 1) * 365 + (y - 1) / 4 - (y - 1) / 100 + (y - 1) / 400

/-- Seconds of the naive timestamp since the calendar origin (an injective,
second-granular encoding mirroring `datetime.toordinal`). -/
def naiveSecs (dt : NaiveDT) : Nat :=
  (daysBeforeYear dt.year + daysBeforeMonth dt.year dt.month + (dt.day - 1)) * 86400 +
    dt.hour * 3600 + dt.minute * 60 + dt.second

/-- Decimal value of a digit character. -/
def dv (c : Char) : Nat := c.toNat - 48

/-- `datetime.strptime(value, "%Y-%m-%dT%H:%M:%S")` at the fixed width slurm
emits: 19 characters, with range validation; `none` models the raised
`ValueError`. -/
def parseStrptime (s : String) : Option NaiveDT :=
  match s.data with
  | [y1, y2, y3, y4, c1, m1, m2, c2, d1, d2, c3, h1, h2, c4, n1, n2, c5, s1, s2] =>
    if c1 = '-' ∧ c2 = '-' ∧ c3 = 'T' ∧ c4 = ':' ∧ c5 = ':' ∧
        y1.isDigit ∧ y2.isDigit ∧ y3.isDigit ∧ y4.isDigit ∧ m1.isDigit ∧ m2.isDigit ∧
        d1.isDigit ∧ d2.isDigit ∧ h1.isDigit ∧ h2.isDigit ∧ n1.isDigit ∧ n2.isDigit ∧
        s1.isDigit ∧ s2.isDigit then
      let y := dv y1 * 1000 + dv y2 * 100 + dv y3 * 10 + dv y4
      let mo := dv m1 * 10 + dv m2
      let d := dv d1 * 10 + dv d2
      let h := dv h1 * 10 + dv h2
      let mi := dv n1 * 10 + dv n2
      let se := dv s1 * 10 + dv s2
      if 1 ≤ mo ∧ mo ≤ 12 ∧ 1 ≤ d ∧ d ≤ daysInMonth y mo ∧ h ≤ 23 ∧ mi ≤ 59 ∧ se ≤ 59 then
        some ⟨y, mo, d, h, mi, se⟩
      else none
    else none
  | _ => none

/-- `naive.astimezone(tz=timezone.utc)` (slurm_commands.py line 446): Python
presumes a naive datetime to be in the system local timezone, so the
resulting UTC-aware instant is the naive wall-clock seconds minus the local
UTC offset `off` (seconds east of UTC). -/
def astimezoneUtc (off : Int) (dt : NaiveDT) : Int :=
  (naiveSecs dt : Int) - off

/-- The keyword arguments collected from one dump record
(slurm_commands.py lines 424-449): one field per allow-listed key, the two
date fields carrying `none` for `"None"`/`"Unknown"` values. -/
structure NodeKwargs where
  name : Option String
  nodeaddr : Option String
  nodehostname : Option String
  state : Option String
  partitions : Option String
  reason : Option String
  slurmdstarttime : Option (Option Int)
  lastbusytime : Option (Option Int)
deriving DecidableEq

/-- Kwargs with no key set yet. -/
def emptyKwargs : NodeKwargs := ⟨none, none, none, none, none, none, none, none⟩

/-- Modelled from the spec: the node entity classes `StaticNode` and
`DynamicNode` (`slurm_plugin.slurm_resources`, not under `src/`): the
"provisioning mode determines which of the two variants is constructed";
the embedding carries the construction kwargs. -/
inductive SlurmNodeV where
  | static (kw : NodeKwargs)
  | dynamic (kw : NodeKwargs)
deriving DecidableEq

/-- One `Key=Value` line of a record (slurm_commands.py lines 442-449):
exactly one `=` (otherwise the tuple unpacking raises), date fields parsed
with `"None"`/`"Unknown"` mapped to absent, the key looked up in the fixed
key table (an unknown key raises `KeyError`). -/
def applyLine (off : Int) (kw : NodeKwargs) (line : String) : Except Unit NodeKwargs :=
  match pySplitOn line "=" with
  | [key, value] =>
    if key = "SlurmdStartTime" then
      if value = "None" ∨ value = "Unknown" then .ok { kw with slurmdstarttime := some none }
      else
        match parseStrptime value with
        | some dt => .ok { kw with slurmdstarttime := some (some (astimezoneUtc off dt)) }
        | none => .error ()
    else if key = "LastBusyTime" then
      if value = "None" ∨ value = "Unknown" then .ok { kw with lastbusytime := some none }
      else
        match parseStrptime value with
        | some dt => .ok { kw with lastbusytime := some (some (astimezoneUtc off dt)) }
        | none => .error ()
    else if key = "NodeName" then .ok { kw with name := some value }
    else if key = "NodeAddr" then .ok { kw with nodeaddr := some value }
    else if key = "NodeHostName" then .ok { kw with nodehostname := some value }
    else if key = "State" then .ok { kw with state := some value }
    else if key = "Partitions" then .ok { kw with partitions := some value }
    else if key = "Reason" then .ok { kw with reason := some value }
    else .error ()
  | _ => .error ()

/-- Fold `applyLine` over the lines of a record. -/
def applyLines (off : Int) (kw : NodeKwargs) : List String → Except Unit NodeKwargs
  | [] => .ok kw
  | l :: rest =>
    match applyLine off kw l with
    | .error e => .error e
    | .ok kw2 => applyLines off kw2 rest

/-- Classification of a completed record (slurm_commands.py lines 450-459):
look up `kwargs["name"]` (a missing name raises `KeyError`), construct a
`StaticNode` or `DynamicNode` by `is_static_node`, and drop the record with a
warning (`.ok none`) when the name raises `InvalidNodenameError`. -/
def classifyNode (kw : NodeKwargs) : Except Unit (Option SlurmNodeV) :=
  match kw.name with
  | none => .error ()
  | some n =>
    match is_static_node n with
    | .error _ => .ok none
    | .ok true => .ok (some (.static kw))
    | .ok false => .ok (some (.dynamic kw))

/-- One sentinel-delimited record: split into lines, fold the `Key=Value`
lines, and classify unless the record is empty (`if lines:`). -/
def processRecord (off : Int) (record : String) : Except Unit (Option SlurmNodeV) :=
  let lines := pySplitlines record
  match applyLines off emptyKwargs lines with
  | .error e => .error e
  | .ok kw => if lines.isEmpty then .ok none else classifyNode kw

/-- Worker of `_parse_nodes_info` over the list of records, keeping order and
skipping dropped records. -/
def parseNodesGo (off : Int) : List String → Except Unit (List SlurmNodeV)
  | [] => .ok []
  | r :: rest =>
    match processRecord off r with
    | .error e => .error e
    | .ok none => parseNodesGo off rest
    | .ok (some n) =>
      match parseNodesGo off rest with
      | .error e => .error e
      | .ok l => .ok (n :: l)

/-- `_parse_nodes_info(slurm_node_info)` (slurm_commands.py lines 388-461):
split the dump on the `######\n` sentinel and process each record.  `off` is
the system-local UTC offset used by `astimezone` (see `astimezoneUtc`). -/
def parse_nodes_info (off : Int) (slurm_node_info : String) : Except Unit (List SlurmNodeV) :=
  parseNodesGo off (pySplitOn slurm_node_info "######\n")

/-- The slurmdstarttime carried by a parsed node. -/
def slurmdStartOf : SlurmNodeV → Option (Option Int)
  | .static kw => kw.slurmdstarttime
  | .dynamic kw => kw.slurmdstarttime

/-- Modelled from the spec: `SlurmPartition` (`slurm_plugin.slurm_resources`,
not under `src/`): "attributes: name, member node-range expression, state". -/
structure SlurmPartitionM where
  name : String
  nodenames : String
  state : String
deriving DecidableEq

/-- Modelled from the spec: the `PartitionStatus` enumeration
(`slurm_plugin.slurm_resources`, not under `src/`): "state (enum:
UP-equivalent / DOWN-equivalent / other scheduler-defined states)"; an
unknown state string raises (as Python `Enum` conversion does). -/
def partitionStatusOf (s : String) : Except Unit String :=
  if s = "UP" ∨ s = "DOWN" ∨ s = "DRAIN" ∨ s = "INACTIVE" then .ok s else .error ()

/-- The target-selection loop of `update_all_partitions` (slurm_commands.py
lines 200-207): keep, in order, the partitions whose status differs from the
target status, first forcing their nodes through `set_nodes_power_down` when
`reset_node_addrs_hostname` is set; any raised error (status conversion or
power-down) propagates. -/
def computeTargets (nro : Nat → String → Bool) (state : String) (reset : Bool) :
    List SlurmPartitionM → Except Unit (List String)
  | [] => .ok []
  | part :: rest =>
    match partitionStatusOf part.state with
    | .error e => .error e
    | .ok ps =>
      match partitionStatusOf state with
      | .error e => .error e
      | .ok ts =>
        if ps ≠ ts then
          if reset then
            match (set_nodes_power_down nro (.str part.nodenames) (some "stopping cluster")).1 with
            | .error e => .error e
            | .ok _ =>
              match computeTargets nro state reset rest with
              | .error e => .error e
              | .ok tl => .ok (part.name :: tl)
          else
            match computeTargets nro state reset rest with
            | .error e => .error e
            | .ok tl => .ok (part.name :: tl)
        else computeTargets nro state reset rest

/-- `update_all_partitions(state, reset_node_addrs_hostname)`
(slurm_commands.py lines 195-212): read the partition info (injected as
`partsInfo`, since `get_partitions_info` shells out), select and optionally
power-down-reset the partitions to update, update them, and return whether
the succeeded list equals the selected list; every raised exception anywhere
in the sequence is caught and turned into `false` (the function is total and
returns `Bool`: no exception escapes). -/
def update_all_partitions (partsInfo : Except Unit (List SlurmPartitionM))
    (nro : Nat → String → Bool) (partOk : String → Bool) (state : String)
    (reset : Bool) : Bool :=
  match partsInfo with
  | .error _ => false
  | .ok parts =>
    match computeTargets nro state reset parts with
    | .error _ => false
    | .ok targets =>
      match update_partitions partOk targets state with
      | .error _ => false
      | .ok succeeded => decide (succeeded = targets)

/-! ### Properties of the tokenizer -/

theorem splitGo_ne_nil (cs : List Char) (prev : Option Char) (acc : List Char) :
    splitGo cs prev acc ≠ [] := by
  induction cs generalizing prev acc with
  | nil => simp [splitGo]
  | cons c rest ih =>
    by_cases h : c = ',' ∧ prev = some ']'
    · simp [splitGo, h]
    · simpa [splitGo, h] using ih (some c) (acc ++ [c])

theorem joinComma_cons (a : List Char) (L : List (List Char)) (h : L ≠ []) :
    joinComma (a :: L) = a ++ ',' :: joinComma L := by
  cases L with
  | nil => exact absurd rfl h
  | cons b bs => rfl

/-- Rejoining the tokens with commas reconstructs the input: the tokenizer
removes exactly comma characters. -/
theorem joinComma_splitGo (cs : List Char) (prev : Option Char) (acc : List Char) :
    joinComma (splitGo cs prev acc) = acc ++ cs := by
  induction cs generalizing prev acc with
  | nil => simp [splitGo, joinComma]
  | cons c rest ih =>
    by_cases h : c = ',' ∧ prev = some ']'
    · have hstep : splitGo (c :: rest) prev acc = acc :: splitGo rest (some c) [] := by
        simp [splitGo, h]
      rw [hstep, joinComma_cons _ _ (splitGo_ne_nil _ _ _), ih, h.1]
      simp
    · have hstep : splitGo (c :: rest) prev acc = splitGo rest (some c) (acc ++ [c]) := by
        simp [splitGo, h]
      rw [hstep, ih]
      simp

theorem hasBC_append_false (acc : List Char) (c : Char)
    (h1 : hasBC acc = false)
    (h2 : ∀ b, acc.getLast? = some b → ¬(b = ']' ∧ c = ',')) :
    hasBC (acc ++ [c]) = false := by
  induction acc with
  | nil => simp [hasBC]
  | cons a rest ih =>
    cases rest with
    | nil =>
      have hne := h2 a (by simp)
      simp only [List.cons_append, List.nil_append, hasBC, Bool.or_eq_false_iff,
        Bool.and_eq_false_iff, decide_eq_false_iff_not]
      constructor
      · by_cases ha : a = ']'
        · exact Or.inr fun hc => hne ⟨ha, hc⟩
        · exact Or.inl ha
      · trivial
    | cons b bs =>
      have h1' : hasBC (b :: bs) = false := by
        simp only [hasBC, Bool.or_eq_false_iff] at h1
        exact h1.2
      have hhead : (decide (a = ']') && decide (b = ',')) = false := by
        simp only [hasBC, Bool.or_eq_false_iff] at h1
        exact h1.1
      have h2' : ∀ x, (b :: bs).getLast? = some x → ¬(x = ']' ∧ c = ',') := by
        intro x hx
        exact h2 x (by rw [List.getLast?_cons_cons]; exact hx)
      have := ih h1' h2'
      simp only [List.cons_append] at this ⊢
      simp only [hasBC, Bool.or_eq_false_iff]
      exact ⟨hhead, by simpa using this⟩

/-- Invariant of the tokenizer scan: `prev` is the last character of the
current token, or the token is empty right after a split (or at the start). -/
def splitInv (acc : List Char) (prev : Option Char) : Prop :=
  (acc = [] ∧ (prev = none ∨ prev = some ',')) ∨ (acc ≠ [] ∧ prev = acc.getLast?)

theorem splitGo_no_bc (cs : List Char) (prev : Option Char) (acc : List Char)
    (hinv : splitInv acc prev) (hacc : hasBC acc = false) :
    ∀ t ∈ splitGo cs prev acc, hasBC t = false := by
  induction cs generalizing prev acc with
  | nil =>
    intro t ht
    simp only [splitGo, List.mem_singleton] at ht
    subst ht; exact hacc
  | cons c rest ih =>
    intro t ht
    by_cases h : c = ',' ∧ prev = some ']'
    · rw [show splitGo (c :: rest) prev acc = acc :: splitGo rest (some c) [] by
        simp [splitGo, h]] at ht
      rcases List.mem_cons.mp ht with rfl | ht'
      · exact hacc
      · exact ih (some c) [] (Or.inl ⟨rfl, Or.inr (by rw [h.1])⟩) (by simp [hasBC]) t ht'
    · rw [show splitGo (c :: rest) prev acc = splitGo rest (some c) (acc ++ [c]) by
        simp [splitGo, h]] at ht
      refine ih (some c) (acc ++ [c]) ?_ ?_ t ht
      · exact Or.inr ⟨by simp, by rw [List.getLast?_concat]⟩
      · refine hasBC_append_false acc c hacc ?_
        intro b hb hbc
        rcases hinv with ⟨rfl, _⟩ | ⟨_, hp⟩
        · simp at hb
        · exact h ⟨hbc.2, by rw [hp, hb, hbc.1]⟩

theorem splitGo_nonlast_rb (cs : List Char) (prev : Option Char) (acc : List Char)
    (hinv : splitInv acc prev) :
    ∀ t ∈ (splitGo cs prev acc).dropLast, t.getLast? = some ']' := by
  induction cs generalizing prev acc with
  | nil => simp [splitGo]
  | cons c rest ih =>
    intro t ht
    by_cases h : c = ',' ∧ prev = some ']'
    · rw [show splitGo (c :: rest) prev acc = acc :: splitGo rest (some c) [] by
        simp [splitGo, h]] at ht
      rw [List.dropLast_cons_of_ne_nil (splitGo_ne_nil _ _ _)] at ht
      rcases List.mem_cons.mp ht with rfl | ht'
      · rcases hinv with ⟨rfl, hp | hp⟩ | ⟨_, hp⟩
        · rw [h.2] at hp; cases hp
        · rw [h.2] at hp; cases hp
        · rw [← hp, h.2]
      · exact ih (some c) [] (Or.inl ⟨rfl, Or.inr (by rw [h.1])⟩) t ht'
    · rw [show splitGo (c :: rest) prev acc = splitGo rest (some c) (acc ++ [c]) by
        simp [splitGo, h]] at ht
      exact ih (some c) (acc ++ [c]) (Or.inr ⟨by simp, by rw [List.getLast?_concat]⟩) t ht

theorem data_splitAfterBracket (s : String) :
    (splitAfterBracket s).map String.data = splitGo s.data none [] := by
  rw [splitAfterBracket, List.map_map]
  exact List.map_id' _

/-! ### Properties of the batcher -/

theorem grouperGo_flatten (n : Nat) (hn : 0 < n) :
    ∀ (fuel : Nat) (l : List α), l.length ≤ fuel → (grouperGo n fuel l).flatten = l := by
  intro fuel
  induction fuel with
  | zero =>
    intro l hl
    rw [List.eq_nil_of_length_eq_zero (Nat.le_zero.mp hl)]
    rfl
  | succ fuel ih =>
    intro l hl
    cases l with
    | nil => rfl
    | cons a l' =>
      rw [grouperGo, List.flatten_cons, ih ((a :: l').drop n)
        (by simp only [List.length_drop, List.length_cons] at *; omega)]
      exact List.take_append_drop n (a :: l')

theorem grouperGo_length (n : Nat) (hn : 0 < n) :
    ∀ (fuel : Nat) (l : List α), l.length ≤ fuel →
      (grouperGo n fuel l).length = (l.length + n - 1) / n := by
  intro fuel
  induction fuel with
  | zero =>
    intro l hl
    rw [List.eq_nil_of_length_eq_zero (Nat.le_zero.mp hl)]
    simp [grouperGo, Nat.div_eq_of_lt (show n - 1 < n by omega)]
  | succ fuel ih =>
    intro l hl
    cases l with
    | nil => simp [grouperGo, Nat.div_eq_of_lt (show n - 1 < n by omega)]
    | cons a l' =>
      rw [grouperGo, List.length_cons,
        ih ((a :: l').drop n) (by simp only [List.length_drop, List.length_cons] at *; omega)]
      rw [List.length_drop]
      have hlen : 1 ≤ (a :: l').length := by simp
      by_cases hle : (a :: l').length ≤ n
      · have h1 : (a :: l').length - n + n - 1 = n - 1 := by omega
        have h2 : (a :: l').length + n - 1 = ((a :: l').length - 1) + n := by omega
        rw [h1, h2, Nat.add_div_right _ hn,
          Nat.div_eq_of_lt (show n - 1 < n by omega),
          Nat.div_eq_of_lt (show (a :: l').length - 1 < n by omega)]
      · have h1 : (a :: l').length - n + n - 1 = ((a :: l').length - 1 - n) + n := by omega
        have h2 : (a :: l').length + n - 1 = (((a :: l').length - 1 - n) + n) + n := by omega
        rw [h1, h2, Nat.add_div_right _ hn, Nat.add_div_right _ hn, Nat.add_div_right _ hn]

theorem grouperGo_sizes (n : Nat) :
    ∀ (fuel : Nat) (l : List α), ∀ g ∈ grouperGo n fuel l, g.length ≤ n := by
  intro fuel
  induction fuel with
  | zero => intro l g hg; simp [grouperGo] at hg
  | succ fuel ih =>
    intro l g hg
    cases l with
    | nil => simp [grouperGo] at hg
    | cons a l' =>
      rw [grouperGo] at hg
      rcases List.mem_cons.mp hg with rfl | hg'
      · exact List.length_take_le _ _
      · exact ih _ g hg'

theorem grouper_flatten (l : List α) (n : Nat) (hn : 0 < n) : (grouper l n).flatten = l := by
  rw [grouper, if_neg (by omega)]
  exact grouperGo_flatten n hn _ l le_rfl

theorem grouper_length (l : List α) (n : Nat) (hn : 0 < n) :
    (grouper l n).length = (l.length + n - 1) / n := by
  rw [grouper, if_neg (by omega)]
  exact grouperGo_length n hn _ l le_rfl

theorem grouper_sizes (l : List α) (n : Nat) : ∀ g ∈ grouper l n, g.length ≤ n := by
  rw [grouper]
  split
  · simp
  · exact grouperGo_sizes n _ l

theorem zip3_replicate (l : List α) (x : β) (y : γ) :
    zip3 l (List.replicate l.length x) (List.replicate l.length y) =
      l.map (fun a => (a, x, y)) := by
  induction l with
  | nil => rfl
  | cons a as ih => simp [zip3, List.replicate_succ, ih]

/-! ### Properties of the partition updates -/

theorem foldl_append_filter (q : String → Bool) (l : List String) :
    ∀ acc, l.foldl (fun acc p => if q p then acc ++ [p] else acc) acc = acc ++ l.filter q := by
  induction l with
  | nil => intro acc; simp
  | cons p rest ih =>
    intro acc
    by_cases h : q p
    · simp [List.foldl_cons, h, ih, List.filter_cons]
    · simp [List.foldl_cons, h, ih, List.filter_cons]

theorem update_partitions_eq (partOk : String → Bool) (parts : List String) (state : String) :
    update_partitions partOk parts state =
      if validArg state then .ok (parts.filter (fun p => validArg p && partOk p))
      else .error () := by
  rw [update_partitions]
  split
  · rw [foldl_append_filter]
    simp
  · rfl

/-! ### Properties of the batch loop -/

theorem exists_ok_of_isOk {e : Except Unit String} (h : e.isOk = true) : ∃ s, e = .ok s := by
  cases e with
  | error u => simp [Except.isOk, Except.toBool] at h
  | ok s => exact ⟨s, rfl⟩

theorem runBatches_first_fail (runOk : String → Bool) (update_cmd : String) :
    ∀ (batches : List (String × Option String × Option String)),
      (∀ b ∈ batches, (buildNodeInfo b).isOk = true) →
      ∀ i, (cmdsOf update_cmd batches).findIdx (fun c => !runOk c) = i →
        i < batches.length →
        runBatches runOk true update_cmd batches =
          ((cmdsOf update_cmd batches).take (i + 1), .error ()) := by
  intro batches
  induction batches with
  | nil => intro _ i _ hi; simp at hi
  | cons b rest ih =>
    intro hv i hfind hlt
    obtain ⟨s, hs⟩ := exists_ok_of_isOk (hv b (List.mem_cons_self _ _))
    have hcmds : cmdsOf update_cmd (b :: rest) =
        (update_cmd ++ " " ++ s) :: cmdsOf update_cmd rest := by
      simp [cmdsOf, hs, Except.toOption]
    rw [hcmds] at hfind ⊢
    by_cases hr : runOk (update_cmd ++ " " ++ s)
    · rw [List.findIdx_cons] at hfind
      simp only [hr, Bool.not_true, cond_false] at hfind
      cases i with
      | zero => omega
      | succ j =>
        have hj : (cmdsOf update_cmd rest).findIdx (fun c => !runOk c) = j := by omega
        have hrec := ih (fun b' hb' => hv b' (List.mem_cons_of_mem _ hb')) j hj
          (by simp only [List.length_cons] at hlt; omega)
        rw [runBatches, hs]
        simp only [hr, if_true]
        rw [hrec]
        simp [List.take_succ_cons]
    · rw [runBatches, hs]
      simp only [hr, if_false, if_true]
      rw [List.findIdx_cons] at hfind
      simp only [hr, Bool.not_false, cond_true] at hfind
      subst hfind
      simp [List.take_succ_cons]

/-! ### The claims -/

/-- A 101-token node list: batched with batch size 100 it yields two batches. -/
def c1nodes : StrOrList := .list (List.replicate 101 "x")

/-- The node expression of the first of the two batches of `c1nodes`. -/
def c1batch1 : String := String.intercalate "," (List.replicate 100 "x")

set_option maxRecDepth 4000 in
/-- C1, counterexample: with `raise_on_error=true`, a 101-token node list
(two batches) and a command executor that always fails, the first batch's
error propagates but only one command is ever executed — the second batch is
not attempted, contradicting "the commands for all remaining batches are
still attempted". -/
theorem c1_counterexample :
    (update_nodes (fun _ => false) c1nodes none none none none true).2 = .error () ∧
    (update_nodes (fun _ => false) c1nodes none none none none true).1.length = 1 ∧
    (match batch_node_info c1nodes none none 100 with
     | .ok batched => batched.length
     | .error _ => 0) = 2 :=
  ⟨rfl, rfl, rfl⟩

/-- C1 (amended): for every call to `update_nodes` with `raise_on_error=true`,
if the command of some batch fails then the first failing batch's error
propagates to the caller and the remaining batches are NOT attempted: the
executed commands are exactly those up to and including the first failing
one. -/
theorem c1_amended (runOk : String → Bool) (nodes : StrOrList)
    (nodeaddrs nodehostnames : Option StrOrList) (state reason : Option String)
    (batched : List (String × Option String × Option String)) (update_cmd : String)
    (hb : batch_node_info nodes nodeaddrs nodehostnames 100 = .ok batched)
    (hc : buildUpdateCmd state reason = .ok update_cmd)
    (hv : ∀ b ∈ batched, (buildNodeInfo b).isOk = true)
    (i : Nat) (hfind : (cmdsOf update_cmd batched).findIdx (fun c => !runOk c) = i)
    (hlt : i < batched.length) :
    update_nodes runOk nodes nodeaddrs nodehostnames state reason true =
      ((cmdsOf update_cmd batched).take (i + 1), .error ()) := by
  rw [update_nodes, hb, hc]
  exact runBatches_first_fail runOk update_cmd batched hv i hfind hlt

set_option maxRecDepth 4000 in
/-- C1, witness for the amended theorem at the concrete 101-token input. -/
theorem c1_amended_witness :
    update_nodes (fun _ => false) c1nodes none none none none true =
      ((cmdsOf (SCONTROL ++ " update") [(c1batch1, none, none), ("x", none, none)]).take 1,
        .error ()) :=
  c1_amended (fun _ => false) c1nodes none none none none
    [(c1batch1, none, none), ("x", none, none)] (SCONTROL ++ " update")
    rfl rfl (by decide) 0 rfl (by decide)

/-- The node dump used for the timestamp claims: a record with a literal
`SlurmdStartTime`, one with `None` and one with `Unknown`. -/
def c2input : String :=
  "NodeName=queue1-st-c5xlarge-3\nSlurmdStartTime=2023-01-26T09:57:15\n######\n" ++
  "NodeName=queue1-st-c5xlarge-4\nSlurmdStartTime=None\n######\n" ++
  "NodeName=queue1-st-c5xlarge-5\nSlurmdStartTime=Unknown\n######\n"

/-- The instant `2023-01-26T09:57:15+00:00`, i.e. the naive timestamp read at
UTC offset zero. -/
def c2instant : Int := (naiveSecs ⟨2023, 1, 26, 9, 57, 15⟩ : Nat)

/-- Expected kwargs of the first record of `c2input` at local offset `off`. -/
def c2kw1 (off : Int) : NodeKwargs :=
  { emptyKwargs with
    name := some "queue1-st-c5xlarge-3", slurmdstarttime := some (some (c2instant - off)) }

/-- Expected kwargs of the `SlurmdStartTime=None` record of `c2input`. -/
def c2kw2 : NodeKwargs :=
  { emptyKwargs with name := some "queue1-st-c5xlarge-4", slurmdstarttime := some none }

/-- Expected kwargs of the `SlurmdStartTime=Unknown` record of `c2input`. -/
def c2kw3 : NodeKwargs :=
  { emptyKwargs with name := some "queue1-st-c5xlarge-5", slurmdstarttime := some none }

set_option maxRecDepth 4000 in
/-- C2, counterexample: at a non-zero local UTC offset (3600 s, e.g. CET in
winter) the record `SlurmdStartTime=2023-01-26T09:57:15` parses to the
instant `2023-01-26T08:57:15+00:00`, which differs from the claimed
`2023-01-26T09:57:15+00:00`: `astimezone` interprets the naive value in the
system local timezone. -/
theorem c2_counterexample :
    (parse_nodes_info 3600 c2input).map (fun l => l.map slurmdStartOf) =
      .ok [some (some (c2instant - 3600)), some none, some none] ∧
    some (some (c2instant - 3600)) ≠ some (some c2instant) :=
  ⟨rfl, by decide⟩

set_option maxRecDepth 4000 in
/-- C2 (amended): parsing `SlurmdStartTime=2023-01-26T09:57:15` yields the
UTC-aware instant obtained by reading the naive timestamp in the system local
timezone (offset `off`); it equals `2023-01-26T09:57:15+00:00` exactly when
the local offset is zero.  `SlurmdStartTime=None` and
`SlurmdStartTime=Unknown` yield an absent value at every offset. -/
theorem c2_amended (off : Int) :
    parse_nodes_info off c2input = .ok [.static (c2kw1 off), .static c2kw2, .static c2kw3] ∧
    (c2kw1 off).slurmdstarttime = some (some (c2instant - off)) ∧
    (c2instant - off = c2instant ↔ off = 0) ∧
    c2kw2.slurmdstarttime = some none ∧
    c2kw3.slurmdstarttime = some none :=
  ⟨rfl, rfl, by omega, rfl, rfl⟩

set_option maxRecDepth 4000 in
/-- C2, witness: the amended theorem at offset zero, where the parsed value
is exactly the claimed `+00:00` instant. -/
theorem c2_amended_witness :
    parse_nodes_info 0 c2input = .ok [.static (c2kw1 0), .static c2kw2, .static c2kw3] :=
  (c2_amended 0).1

/-- C3, counterexample: on `"a-1,b-2"` the comma is outside any bracketed
range, yet the code's tokenizer does not split (its lookbehind requires a
closing bracket right before the comma), while the spec's
"split on commas not inside a bracketed range" does. -/
theorem c3_counterexample :
    splitAfterBracket "a-1,b-2" = ["a-1,b-2"] ∧
    splitOutsideBrackets "a-1,b-2" = ["a-1", "b-2"] ∧
    splitAfterBracket "a-1,b-2" ≠ splitOutsideBrackets "a-1,b-2" := by
  refine ⟨rfl, rfl, by decide⟩

/-- C3 (amended): the tokenizer splits on exactly those commas immediately
preceded by a closing bracket: the example `"a-[1,2],b-[3]"` tokenizes as
claimed; rejoining the tokens with commas always reconstructs the input; no
token contains a `],` pair (every such comma is split on); and every
non-final token ends with `]` (only such commas are split on). -/
theorem c3_amended :
    splitAfterBracket "a-[1,2],b-[3]" = ["a-[1,2]", "b-[3]"] ∧
    (∀ s : String, joinComma ((splitAfterBracket s).map String.data) = s.data) ∧
    (∀ s : String, ∀ t ∈ splitAfterBracket s, hasBC t.data = false) ∧
    (∀ s : String, ∀ t ∈ (splitAfterBracket s).dropLast, t.data.getLast? = some ']') := by
  refine ⟨by decide, ?_, ?_, ?_⟩
  · intro s
    rw [data_splitAfterBracket, joinComma_splitGo]
    rfl
  · intro s t ht
    rw [splitAfterBracket] at ht
    obtain ⟨l, hl, rfl⟩ := List.mem_map.mp ht
    exact splitGo_no_bc s.data none [] (Or.inl ⟨rfl, Or.inl rfl⟩) rfl l hl
  · intro s t ht
    rw [splitAfterBracket, ← List.map_dropLast] at ht
    obtain ⟨l, hl, rfl⟩ := List.mem_map.mp ht
    exact splitGo_nonlast_rb s.data none [] (Or.inl ⟨rfl, Or.inl rfl⟩) l hl

/-- C3, witness: the amended theorem applied at the example input and its
first token. -/
theorem c3_amended_witness : hasBC (String.data "a-[1,2]") = false :=
  c3_amended.2.2.1 "a-[1,2],b-[3]" "a-[1,2]" (by decide)

/-- C4, counterexample: a `state` argument that fails the injection check
makes `update_partitions` raise (before any partition is processed), even
though the partition argument itself is valid — contradicting "no exception
propagates past the function regardless of which partition or argument caused
the failure". -/
theorem c4_counterexample :
    update_partitions (fun _ => true) ["p1"] "up;down" = .error () ∧
    validArg "p1" = true :=
  ⟨rfl, rfl⟩

/-- C4 (amended): when the `state` argument passes validation,
`update_partitions` returns exactly the partitions whose validation and
update command succeeded — per-partition failures are caught and the
partition excluded, and no exception propagates; but a validation failure of
the `state` argument itself raises out of the function. -/
theorem c4_amended (partOk : String → Bool) (parts : List String) (state : String)
    (h : validArg state = true) :
    update_partitions partOk parts state =
      .ok (parts.filter (fun p => validArg p && partOk p)) := by
  rw [update_partitions_eq]
  simp [h]

/-- C4, witness: a failing partition and an injection-unsafe partition are
excluded, the valid one is returned. -/
theorem c4_amended_witness :
    update_partitions (fun p => decide (p ≠ "bad")) ["p1", "bad", "p;2"] "INACTIVE" =
      .ok ["p1"] := by
  have h := c4_amended (fun p => decide (p ≠ "bad")) ["p1", "bad", "p;2"] "INACTIVE"
    (by decide)
  rw [h]
  rfl

/-- C5: for a node expression that tokenizes into `toks` and any batch size
`B > 0`, `_batch_node_info` yields exactly `⌈N/B⌉` batches (as
`(N + B - 1) / B`), each batch holding at most `B` tokens, and concatenating
the batches in order reconstructs the token sequence. -/
theorem c5_batching (s : String) (toks : List String) (B : Nat) (hB : 0 < B)
    (hs : splitAfterBracket s = toks) :
    batch_node_info (.str s) none none B =
      .ok ((grouper toks B).map
        (fun g => (String.intercalate "," g, (none : Option String), (none : Option String)))) ∧
    (grouper toks B).length = (toks.length + B - 1) / B ∧
    (∀ g ∈ grouper toks B, g.length ≤ B) ∧
    (grouper toks B).flatten = toks := by
  refine ⟨?_, grouper_length toks B hB, grouper_sizes toks B, grouper_flatten toks B hB⟩
  simp only [batch_node_info, tokensOf, hs, batch_attribute]
  rw [zip3_replicate, List.map_map]
  rfl

/-- C5, witness: the example expression with batch size 1 yields two
singleton batches that rejoin to the token sequence. -/
theorem c5_batching_witness :
    batch_node_info (.str "a-[1,2],b-[3]") none none 1 =
      .ok [("a-[1,2]", none, none), ("b-[3]", none, none)] ∧
    (grouper ["a-[1,2]", "b-[3]"] 1).length = 2 := by
  have h := c5_batching "a-[1,2],b-[3]" ["a-[1,2]", "b-[3]"] 1 (by decide) (by decide)
  exact ⟨h.1, h.2.1⟩

/-- C6, counterexample: with an empty node list and a non-empty address list
the tokenized lengths differ (0 vs 1) and the addresses are non-empty, yet no
`ValueError` is raised: `expected_length` is `len(nodenames) = 0`, which is
falsy, so the length check is skipped; zero commands are executed and the
call returns normally. -/
theorem c6_counterexample :
    update_nodes (fun _ => true) (.list []) (some (.list ["addr1"])) none none none true =
      ([], .ok ()) ∧
    (tokensOf (.list ([] : List String))).length ≠ (tokensOf (.list ["addr1"])).length ∧
    truthyS (.list ["addr1"]) = true :=
  ⟨rfl, by decide, rfl⟩

/-- C6 (amended): when the tokenized node list is non-empty, a truthy
`nodeaddrs` (or, with no addresses, a truthy `nodehostnames`) whose tokenized
length differs from the node list's raises the alignment `ValueError` before
any command is issued: the call fails with zero executed commands. -/
theorem c6_amended (runOk : String → Bool) (nodes a hl : StrOrList)
    (hosts : Option StrOrList) (state reason : Option String) (roe : Bool)
    (hn : 1 ≤ (tokensOf nodes).length) :
    (truthyS a = true → (tokensOf a).length ≠ (tokensOf nodes).length →
      update_nodes runOk nodes (some a) hosts state reason roe = ([], .error ())) ∧
    (truthyS hl = true → (tokensOf hl).length ≠ (tokensOf nodes).length →
      update_nodes runOk nodes none (some hl) state reason roe = ([], .error ())) := by
  constructor
  · intro ht hne
    have hA : batch_attribute a 100 (some (tokensOf nodes).length) = .error () := by
      have hcond : (tokensOf nodes).length ≠ 0 ∧
          (tokensOf a).length ≠ (tokensOf nodes).length := ⟨by omega, hne⟩
      simp [batch_attribute, hcond]
    rw [update_nodes, batch_node_info]
    simp only [ht, if_true, hA]
    rfl
  · intro ht hne
    have hA : batch_attribute hl 100 (some (tokensOf nodes).length) = .error () := by
      have hcond : (tokensOf nodes).length ≠ 0 ∧
          (tokensOf hl).length ≠ (tokensOf nodes).length := ⟨by omega, hne⟩
      simp [batch_attribute, hcond]
    rw [update_nodes, batch_node_info]
    simp only [ht, if_true, hA]
    rfl

/-- C6, witness: one node token against three address tokens raises the
alignment error with zero commands executed. -/
theorem c6_amended_witness :
    update_nodes (fun _ => true) (.str "q-[1-2]") (some (.list ["a", "b", "c"])) none
      none none true = ([], .error ()) := by
  have h := c6_amended (fun _ => true) (.str "q-[1-2]") (.list ["a", "b", "c"])
    (.list ["a", "b", "c"]) none none none true (by decide)
  exact h.1 (by decide) (by decide)

/-- C7: `update_all_partitions` returns `true` exactly when the partition
query succeeded, every targeted partition (state differing from the target,
power-down reset included when requested) was computed without error, the
`state` argument passed validation, and every targeted partition's own
validation and update command succeeded — so it returns `false` whenever at
least one targeted partition's update fails; and being a total `Bool`-valued
function of the injected effects, it never raises. -/
theorem c7_update_all_partitions (partsInfo : Except Unit (List SlurmPartitionM))
    (nro : Nat → String → Bool) (partOk : String → Bool) (state : String) (reset : Bool) :
    update_all_partitions partsInfo nro partOk state reset = true ↔
      ∃ parts targets, partsInfo = .ok parts ∧
        computeTargets nro state reset parts = .ok targets ∧
        validArg state = true ∧
        ∀ p ∈ targets, validArg p = true ∧ partOk p = true := by
  cases partsInfo with
  | error e => simp [update_all_partitions]
  | ok parts =>
    rw [update_all_partitions]
    cases hct : computeTargets nro state reset parts with
    | error e => simp [hct]
    | ok targets =>
      simp only [update_partitions_eq]
      by_cases hs : validArg state
      · simp only [hs, if_true]
        rw [decide_eq_true_eq]
        constructor
        · intro hfil
          refine ⟨parts, targets, rfl, hct, by simp [hs], ?_⟩
          intro p hp
          have := (List.filter_eq_self.mp hfil) p hp
          simpa [Bool.and_eq_true] using this
        · rintro ⟨parts', targets', hpi, hct', _, hall⟩
          obtain rfl : parts = parts' := by injection hpi
          rw [hct] at hct'
          obtain rfl : targets = targets' := by injection hct'
          refine List.filter_eq_self.mpr ?_
          intro p hp
          have := hall p hp
          simp [Bool.and_eq_true, this.1, this.2]
      · simp only [hs, if_false]
        constructor
        · intro h; cases h
        · rintro ⟨_, _, _, _, hs', _⟩
          exact absurd hs' (by simp [hs])

/-- C7, witness: a concrete run where the single differing partition updates
successfully, so the function returns `true`. -/
theorem c7_update_all_partitions_witness :
    update_all_partitions (.ok [⟨"queue1", "queue1-st-c5xlarge-1", "UP"⟩])
      (fun _ _ => true) (fun _ => true) "INACTIVE" false = true :=
  (c7_update_all_partitions (.ok [⟨"queue1", "queue1-st-c5xlarge-1", "UP"⟩])
    (fun _ _ => true) (fun _ => true) "INACTIVE" false).mpr
    ⟨[⟨"queue1", "queue1-st-c5xlarge-1", "UP"⟩], ["queue1"], rfl, rfl, rfl, by decide⟩

/-- C8: `set_nodes_power_down` under an always-failing update: exactly 3
total attempts are made, with the fixed 1500 ms (1.5 s) delay between
consecutive attempts (two waits), and the failure propagates. -/
theorem c8_power_down_retry (runOk : Nat → String → Bool) (nodes : StrOrList)
    (reason : Option String)
    (h : ∀ i, (reset_nodes (runOk i) nodes (some "power_down_force") reason true).2 =
      .error ()) :
    set_nodes_power_down runOk nodes reason = (.error (), 3, [1500, 1500]) := by
  rw [set_nodes_power_down, retryFixed]
  show retryGo _ 1500 1 2 = _
  rw [retryGo]
  simp only [h 1]
  rw [retryGo]
  simp only [h 2]
  rw [retryGo]
  simp only [h 3]

/-- C8, witness: a concrete node with an executor that always fails. -/
theorem c8_power_down_retry_witness :
    set_nodes_power_down (fun _ _ => false) (.str "queue1-st-c5xlarge-1") none =
      (.error (), 3, [1500, 1500]) :=
  c8_power_down_retry (fun _ _ => false) (.str "queue1-st-c5xlarge-1") none
    (fun _ => rfl)

/-- A dump with a static node, a dynamic node and a record whose name fails
the naming grammar. -/
def c9input : String :=
  "NodeName=queue1-st-c5xlarge-3\nNodeAddr=1.2.3.4\nState=IDLE+CLOUD+POWER\n######\n" ++
  "NodeName=queue1-dy-c5xlarge-3\nState=IDLE\n######\n" ++
  "NodeName=badname\nState=IDLE\n######\n"

/-- Expected kwargs of the static record of `c9input`. -/
def c9kwSt : NodeKwargs :=
  { emptyKwargs with
    name := some "queue1-st-c5xlarge-3", nodeaddr := some "1.2.3.4",
    state := some "IDLE+CLOUD+POWER" }

/-- Expected kwargs of the dynamic record of `c9input`. -/
def c9kwDy : NodeKwargs :=
  { emptyKwargs with name := some "queue1-dy-c5xlarge-3", state := some "IDLE" }

set_option maxRecDepth 4000 in
/-- C9: a record whose name parses with provisioning mode "st" is constructed
as a static node, mode "dy" as a dynamic node, and a record whose name fails
the grammar is dropped (no error to the caller); on the concrete dump the
static and dynamic examples are kept in order and the bad record is dropped
from the returned list. -/
theorem c9_node_classification :
    (∀ (kw : NodeKwargs) (n q it : String), kw.name = some n →
        parse_nodename n = some (q, "st", it) →
        classifyNode kw = .ok (some (.static kw))) ∧
    (∀ (kw : NodeKwargs) (n q it : String), kw.name = some n →
        parse_nodename n = some (q, "dy", it) →
        classifyNode kw = .ok (some (.dynamic kw))) ∧
    (∀ (kw : NodeKwargs) (n : String), kw.name = some n →
        parse_nodename n = none → classifyNode kw = .ok none) ∧
    (∀ off : Int, parse_nodes_info off c9input = .ok [.static c9kwSt, .dynamic c9kwDy]) := by
  refine ⟨?_, ?_, ?_, fun off => rfl⟩
  · intro kw n q it hn hp
    simp [classifyNode, hn, is_static_node, hp]
  · intro kw n q it hn hp
    simp [classifyNode, hn, is_static_node, hp]
  · intro kw n hn hp
    simp [classifyNode, hn, is_static_node, hp]

/-- C9, witness: the classification applied at the concrete static example. -/
theorem c9_witness : classifyNode c9kwSt = .ok (some (.static c9kwSt)) :=
  c9_node_classification.1 c9kwSt "queue1-st-c5xlarge-3" "queue1" "c5xlarge" rfl
    (by decide)

/-- C10: an empty-string or empty-list `nodeaddrs`/`nodehostnames` is falsy,
so `update_nodes` behaves exactly as with the argument absent (no alignment
check, hence no alignment error despite the length-0 mismatch); the batches
carry no address or hostname, and each issued command's node fragment is just
`nodename=...` with no `nodeaddr`/`nodehostname` field. -/
theorem c10_empty_attrs (runOk : String → Bool) (nodes : StrOrList)
    (state reason : Option String) (roe : Bool) :
    update_nodes runOk nodes (some (.str "")) (some (.str "")) state reason roe =
      update_nodes runOk nodes none none state reason roe ∧
    update_nodes runOk nodes (some (.list [])) (some (.list [])) state reason roe =
      update_nodes runOk nodes none none state reason roe ∧
    (∀ nodes' : StrOrList, batch_node_info nodes' (some (.str "")) (some (.list [])) 100 =
      (batch_attribute (.list (tokensOf nodes')) 100 none).map
        (List.map (fun b => (b, (none : Option String), (none : Option String))))) ∧
    (∀ nn : String, buildNodeInfo (nn, none, none) =
      if validArg nn then .ok ("nodename=" ++ nn) else .error ()) := by
  refine ⟨rfl, rfl, ?_, ?_⟩
  · intro nodes'
    exact congrArg Except.ok
      (zip3_replicate ((grouper (tokensOf nodes') 100).map (String.intercalate ",")) none none)
  · intro nn
    by_cases h : validArg nn
    · simp [buildNodeInfo, h]
    · simp [buildNodeInfo, h]

/-- C10, witness: with a concrete node expression, empty-string auxiliary
arguments behave exactly as absent ones. -/
theorem c10_empty_attrs_witness :
    update_nodes (fun _ => true) (.str "queue1-st-c5xlarge-1") (some (.str ""))
      (some (.str "")) none none true =
    update_nodes (fun _ => true) (.str "queue1-st-c5xlarge-1") none none none none true :=
  (c10_empty_attrs (fun _ => true) (.str "queue1-st-c5xlarge-1") none none true).1

end Slurm
